import Mathlib

/-!
Verification of the transaction-submission and polling core of
`setup-drivers.js` (class `TxQueue`, functions `checkUntil` and
`checkUntilEq`), via a shallow embedding of the source into Lean.

Modelling conventions:
* JS numbers holding nonces are natural numbers; clock values and timeout
  arguments are integers (JS allows negative timeouts).
* `this.nonceTracker` is a total map `String → Option Nat` (absent key =
  `none`); the JS read `this.nonceTracker[address] || 0` is `Option.getD 0`
  (both `undefined` and `0` are falsy, and both read as `0`).
* `await`-ed remote values (the node's `accountNextIndex` response, clock
  reads, predicate results) are inputs supplied by the environment.
* The asynchronous lifecycle callback of `TxQueue.submit` is a state
  machine folded over the stream of status updates the subscription
  delivers; "the promise settles" = the `settled` field becomes `some`,
  first settle wins (later `resolve`/`reject` calls are no-ops on an
  already-settled JS promise).
-/

namespace SetupDrivers

/-- `this.nonceTracker`: mapping from signer address to the next nonce to
use, created lazily (absent = `none`). -/
structure TxQueue where
  nonceTracker : String → Option Nat

/-- A queue with an empty `nonceTracker`, as built by the constructor. -/
def TxQueue.empty : TxQueue := ⟨fun _ => none⟩

/-- Point update of the tracker: `this.nonceTracker[address] = n`. -/
def setNonce (q : TxQueue) (address : String) (n : Nat) : TxQueue :=
  ⟨fun b => if b = address then some n else q.nonceTracker b⟩

/-- The value the source reads with `this.nonceTracker[address] || 0`:
the cached next nonce, `0` when no entry exists (or the entry is `0`,
which is equally falsy). -/
def cacheVal (q : TxQueue) (address : String) : Nat :=
  (q.nonceTracker address).getD 0

/-- `TxQueue.nextNonce`: reads `byCache` from the tracker, obtains `byRpc`
from the remote node (an environment input here), returns their max.  The
source performs no assignment, so the state component of the result is the
queue unchanged. -/
def nextNonce (q : TxQueue) (address : String) (byRpc : Nat) : Nat × TxQueue :=
  let byCache := (q.nonceTracker address).getD 0
  (max byCache byRpc, q)

/-- `TxQueue.markNonceFailed`: returns early when the entry is absent or
`0` (both falsy under `!this.nonceTracker[address]`); otherwise lowers the
entry to `nonce` when `nonce` is strictly below it. -/
def markNonceFailed (q : TxQueue) (address : String) (nonce : Nat) : TxQueue :=
  match q.nonceTracker address with
  | none => q
  | some v =>
    if v = 0 then q
    else if nonce < v then setNonce q address nonce else q

/-- The nonce-allocation prefix of `TxQueue.submit`:
`const nonce = await this.nextNonce(address); this.nonceTracker[address] = nonce + 1;`
with the remote response `byRpc` supplied by the environment. -/
def submitAlloc (q : TxQueue) (address : String) (byRpc : Nat) : Nat × TxQueue :=
  let (nonce, q1) := nextNonce q address byRpc
  (nonce, setNonce q1 address (nonce + 1))

@[simp] theorem cacheVal_setNonce (q : TxQueue) (a b : String) (n : Nat) :
    cacheVal (setNonce q a n) b = if b = a then n else cacheVal q b := by
  simp only [cacheVal, setNonce]
  split <;> rfl

@[simp] theorem nextNonce_fst (q : TxQueue) (a : String) (r : Nat) :
    (nextNonce q a r).1 = max (cacheVal q a) r := rfl

@[simp] theorem nextNonce_snd (q : TxQueue) (a : String) (r : Nat) :
    (nextNonce q a r).2 = q := rfl

@[simp] theorem submitAlloc_fst (q : TxQueue) (a : String) (r : Nat) :
    (submitAlloc q a r).1 = max (cacheVal q a) r := rfl

@[simp] theorem submitAlloc_snd (q : TxQueue) (a : String) (r : Nat) :
    (submitAlloc q a r).2 = setNonce q a (max (cacheVal q a) r + 1) := rfl

/-- Characterization of the rollback: at the failed address the cache
drops to `nonce` exactly when it was strictly ahead of it; elsewhere it is
untouched. -/
theorem cacheVal_markNonceFailed (q : TxQueue) (a b : String) (n : Nat) :
    cacheVal (markNonceFailed q a n) b =
      if b = a then (if n < cacheVal q a then n else cacheVal q a)
      else cacheVal q b := by
  unfold markNonceFailed
  split
  · rename_i hnone
    have hc : cacheVal q a = 0 := by simp [cacheVal, hnone]
    by_cases hb : b = a
    · subst hb; simp [hc]
    · simp [hb, hc]
  · rename_i v hsome
    have hc : cacheVal q a = v := by simp [cacheVal, hsome]
    by_cases hv : v = 0
    · subst hv
      by_cases hb : b = a
      · subst hb; simp [hc]
      · simp [hb, hc]
    · simp only [hv, if_false]
      by_cases hn : n < v
      · simp [hn, hc]
      · by_cases hb : b = a
        · subst hb; simp [hn, hc]
        · simp [hb, hn, hc]

/-! ### Interleaved `nextNonce`/`submit` call sequences (claim C7)

Each queue operation issued for a fixed address carries the remote
`accountNextIndex` response its embedded `nextNonce` call observes.
`query r` is a bare `nextNonce` call; `alloc r` is the allocation prefix
of `submit`. -/

inductive QueueOp where
  | query : Nat → QueueOp
  | alloc : Nat → QueueOp

/-- The remote response an operation's `nextNonce` call observes. -/
def opRpc : QueueOp → Nat
  | .query r => r
  | .alloc r => r

/-- One operation against the queue, returning the value its `nextNonce`
call produced and the updated queue. -/
def runOp (q : TxQueue) (a : String) : QueueOp → Nat × TxQueue
  | .query r => nextNonce q a r
  | .alloc r => submitAlloc q a r

/-- A whole interleaved sequence, collecting every `nextNonce` value. -/
def runOps (q : TxQueue) (a : String) : List QueueOp → List Nat × TxQueue
  | [] => ([], q)
  | op :: ops =>
    let (n, q1) := runOp q a op
    let (ns, q2) := runOps q1 a ops
    (n :: ns, q2)

@[simp] theorem runOps_nil (q : TxQueue) (a : String) : runOps q a [] = ([], q) := rfl

@[simp] theorem runOps_cons (q : TxQueue) (a : String) (op : QueueOp) (ops : List QueueOp) :
    runOps q a (op :: ops) =
      ((runOp q a op).1 :: (runOps (runOp q a op).2 a ops).1,
        (runOps (runOp q a op).2 a ops).2) := rfl

theorem runOp_fst (q : TxQueue) (a : String) (op : QueueOp) :
    (runOp q a op).1 = max (cacheVal q a) (opRpc op) := by
  cases op <;> rfl

theorem cacheVal_runOp_le (q : TxQueue) (a : String) (op : QueueOp) :
    cacheVal q a ≤ cacheVal (runOp q a op).2 a := by
  cases op with
  | query r => exact le_refl _
  | alloc r =>
    simp only [runOp, submitAlloc_snd, cacheVal_setNonce, if_pos rfl]
    exact Nat.le_succ_of_le (Nat.le_max_left _ _)

/-! ### The lifecycle callback of `TxQueue.submit` (claims C3, C4, C9)

`submit` allocates a nonce, signs and dispatches the operation, and
subscribes a callback to the stream of status updates (`result` values).
We embed the callback as a transition function on an explicit state:
`settled` models the promise (first settle wins), `unsubbed` models
`unsub()` having been called (an unsubscribed callback receives no
further updates), `storedHash` models the outer `hash` variable, and `q`
the shared nonce tracker touched by the `isInvalid` branch. -/

/-- One event delivered with a status update: the JS object
`{ event: { data, method, section } }`, with `payload` standing for the
decoded first datum `data[0].toHuman()`. -/
structure ChainEvent where
  sectionName : String
  method : String
  payload : String
deriving DecidableEq

/-- The test `section === 'system' && method === 'ExtrinsicFailed'`. -/
def isFailureEvent (e : ChainEvent) : Bool :=
  e.sectionName == "system" && e.method == "ExtrinsicFailed"

/-- `result.status`, restricted to the cases the callback distinguishes:
`ready` covers every status for which `isInBlock`, `isFinalized` and
`isInvalid` are all false. -/
inductive TxStatus where
  | ready : TxStatus
  | inBlock : Nat → TxStatus
  | finalized : Nat → TxStatus
  | invalid : TxStatus
deriving DecidableEq

/-- One `result` value delivered to the callback. -/
structure TxResult where
  status : TxStatus
  events : List ChainEvent
deriving DecidableEq

/-- The settled value of the promise returned by `submit`. -/
inductive Outcome where
  | resolved : Option Nat → List ChainEvent → Outcome
  | rejected : String → Outcome
deriving DecidableEq

/-- State of one in-flight `submit`'s callback and promise. -/
structure SubmitState where
  q : TxQueue
  settled : Option Outcome
  unsubbed : Bool
  storedHash : Option Nat

/-- State right after dispatch: promise pending, subscription live, no
block hash recorded yet. -/
def initSubmit (q : TxQueue) : SubmitState :=
  ⟨q, none, false, none⟩

/-- `resolve`/`reject`: a JS promise keeps its first settled value. -/
def settle (s : SubmitState) (o : Outcome) : SubmitState :=
  if s.settled.isSome then s else { s with settled := some o }

/-- `unsub()`. -/
def doUnsub (s : SubmitState) : SubmitState :=
  { s with unsubbed := true }

/-- The `for (const e of result.events)` loop body of the `isInBlock`
branch: on a failure event, `unsub(); reject(data[0].toHuman())`. -/
def failStep (s : SubmitState) (e : ChainEvent) : SubmitState :=
  if isFailureEvent e then settle (doUnsub s) (.rejected e.payload) else s

/-- The lifecycle callback, for one delivered status update.  An
unsubscribed callback receives nothing.  `wf` is `waitForFinalization`;
`address`/`nonce` identify the submission for the `markNonceFailed` call
of the `isInvalid` branch. -/
def processResult (wf : Bool) (address : String) (nonce : Nat)
    (s : SubmitState) (r : TxResult) : SubmitState :=
  if s.unsubbed then s else
  match r.status with
  | .inBlock h =>
    let s1 := r.events.foldl failStep s
    if !wf then settle (doUnsub s1) (.resolved (some h) r.events)
    else { s1 with storedHash := some h }
  | .finalized _ => settle s (.resolved s.storedHash r.events)
  | .invalid =>
    let s1 := doUnsub s
    let s2 := { s1 with q := markNonceFailed s1.q address nonce }
    settle s2 (.rejected "Invalid transaction")
  | .ready => s

/-- The whole subscription: the callback folded over the stream of status
updates the node delivers. -/
def runResults (wf : Bool) (address : String) (nonce : Nat)
    (s : SubmitState) (rs : List TxResult) : SubmitState :=
  rs.foldl (processResult wf address nonce) s

/-! ### Concurrent nonce allocation (claim C1)

`submit` reads the cached nonce synchronously when called (the first line
of `nextNonce`), then suspends awaiting the remote
`accountNextIndex` response; only after that response resolves does it
write `nonce + 1` back into the tracker.  Two `submit` calls issued
without awaiting therefore interleave at that suspension point.  We model
one in-flight allocation as a task with two atomic steps:

* `readCache`  — the synchronous prefix of `nextNonce` (reads `byCache`
  and issues the RPC);
* `finishRpc r` — the RPC response `r` arrives: the task computes
  `nonce = max byCache r`, and the resumed `submit` body stores
  `nonce + 1` into the shared tracker.

A schedule is a list of (task, step) pairs; a step for a task that has
not read its cache yet is a no-op (the real RPC cannot resolve before it
was issued). -/

/-- One in-flight `submit` allocation. -/
structure AllocTask where
  byCache : Option Nat
  allocated : Option Nat
deriving DecidableEq

/-- A task that has not run yet. -/
def AllocTask.fresh : AllocTask := ⟨none, none⟩

/-- The two atomic steps of one allocation. -/
inductive AllocStep where
  | readCache : AllocStep
  | finishRpc : Nat → AllocStep

/-- Execute one step of one task against the shared tracker. -/
def taskStep (address : String) (q : TxQueue) (t : AllocTask) :
    AllocStep → TxQueue × AllocTask
  | .readCache => (q, { t with byCache := some (cacheVal q address) })
  | .finishRpc r =>
    match t.byCache with
    | none => (q, t)
    | some c =>
      let nonce := max c r
      (setNonce q address (nonce + 1), { t with allocated := some nonce })

/-- Two concurrent submissions for the same address: shared tracker plus
the two tasks' local states. -/
structure TwoTasks where
  q : TxQueue
  t1 : AllocTask
  t2 : AllocTask

/-- Run a schedule; `false` picks task 1, `true` picks task 2. -/
def runSched (address : String) (s : TwoTasks) :
    List (Bool × AllocStep) → TwoTasks
  | [] => s
  | (who, step) :: rest =>
    let s' :=
      if who then
        let (q', t') := taskStep address s.q s.t2 step
        { s with q := q', t2 := t' }
      else
        let (q', t') := taskStep address s.q s.t1 step
        { s with q := q', t1 := t' }
    runSched address s' rest

/-! ### The condition poller: `checkUntil` and `checkUntilEq`

The loops are embedded with explicit environments: `sample i` is the
value the `i`-th `await async_fn()` returns and `clock i` the value
`new Date().getTime()` returns at the `i`-th timeout check.  `t0` is the
clock value captured at call start and the timeout argument is an
integer, as in JS.  `fuel` bounds the number of iterations the embedding
unrolls; every theorem below supplies enough fuel to reach the decisive
iteration, so the `none` (fuel ran out) result never stands for a
behaviour of the source. -/

/-- Environment of one `checkUntil` call. -/
structure PollEnv where
  sample : Nat → Bool
  clock : Nat → Int

/-- Environment of one `checkUntilEq` call. -/
structure PollEnvEq (α : Type) where
  sample : Nat → α
  clock : Nat → Int

/-- Terminal results of a poller call: normal return after `i + 1`
evaluations, or `throw new Error('timeout')` at the `i`-th check.  There
is no partial-result constructor, as the source returns nothing. -/
inductive PollOutcome where
  | ok : Nat → PollOutcome
  | timedOut : Nat → PollOutcome
deriving DecidableEq

/-- The `while (true)` loop of `checkUntil`, from iteration `i` on:
evaluate the predicate first; on `false`, compare elapsed time
(`t - t0 >= timeout`) and throw, else sleep and continue. -/
def checkUntilFrom (env : PollEnv) (t0 timeout : Int) :
    Nat → Nat → Option PollOutcome
  | 0, _ => none
  | fuel + 1, i =>
    if env.sample i then some (.ok i)
    else if timeout ≤ env.clock i - t0 then some (.timedOut i)
    else checkUntilFrom env t0 timeout fuel (i + 1)

/-- `checkUntil(async_fn, timeout)` with start-of-call clock `t0`. -/
def checkUntil (env : PollEnv) (t0 timeout : Int) (fuel : Nat) : Option PollOutcome :=
  checkUntilFrom env t0 timeout fuel 0

/-- The `while (true)` loop of `checkUntilEq`, from iteration `i` on,
threading `lastActual` (used only to decide whether the verbose branch
logs and updates it). -/
def checkUntilEqFrom {α : Type} [BEq α] (env : PollEnvEq α) (expected : α)
    (t0 timeout : Int) (verbose : Bool) :
    Nat → Nat → Option α → Option PollOutcome
  | 0, _, _ => none
  | fuel + 1, i, lastActual =>
    let actual := env.sample i
    if actual == expected then some (.ok i)
    else
      let changed := match lastActual with
        | none => true
        | some l => !(actual == l)
      let lastActual' := if changed && verbose then some actual else lastActual
      if timeout ≤ env.clock i - t0 then some (.timedOut i)
      else checkUntilEqFrom env expected t0 timeout verbose fuel (i + 1) lastActual'

/-- `checkUntilEq(async_fn, expected, timeout, verbose)` with start-of-call
clock `t0` (`lastActual` starts as `undefined`). -/
def checkUntilEq {α : Type} [BEq α] (env : PollEnvEq α) (expected : α)
    (t0 timeout : Int) (verbose : Bool) (fuel : Nat) : Option PollOutcome :=
  checkUntilEqFrom env expected t0 timeout verbose fuel 0 none

/-! ## Concrete fixtures shared by several claims -/

/-- A queue whose tracker holds `5` for address `"A"` and nothing else. -/
def qFive : TxQueue := ⟨fun b => if b = "A" then some 5 else none⟩

/-- A queue whose tracker holds `9` for address `"A"` and nothing else. -/
def qNine : TxQueue := ⟨fun b => if b = "A" then some 9 else none⟩

/-! ## Claim C2 -/

/-- Claim C2: for every address, `nextNonce` returns the maximum of the
locally cached next nonce (`0` when no entry exists) and the remote
node's reported next-account-index, and it leaves the queue state
unchanged. -/
theorem nextNonce_spec (q : TxQueue) (a : String) (byRpc : Nat) :
    (nextNonce q a byRpc).1 = max (cacheVal q a) byRpc ∧
    (q.nonceTracker a = none → (nextNonce q a byRpc).1 = byRpc) ∧
    (nextNonce q a byRpc).2 = q := by
  refine ⟨rfl, ?_, rfl⟩
  intro hnone
  simp [nextNonce, hnone]

/-- Witness for C2: on the empty queue (no entry for `"A"`), `nextNonce`
returns the remote value. -/
theorem nextNonce_spec_witness :
    (nextNonce TxQueue.empty "A" 5).1 = 5 :=
  (nextNonce_spec TxQueue.empty "A" 5).2.1 rfl

/-! ## Claim C5 -/

/-- Claim C5: the rollback in `markNonceFailed` never increases the
cache: afterwards the cached next-nonce at the failed address equals the
failed nonce exactly when the cache was strictly ahead of it and is
unchanged otherwise (other addresses are untouched); and no other queue
operation corrects the cache downward — `nextNonce` leaves the queue
unchanged and the allocation step of `submit` only increases entries. -/
theorem markNonceFailed_rollback_spec (q : TxQueue) (a b : String) (n byRpc : Nat) :
    (cacheVal (markNonceFailed q a n) b =
      if b = a then (if n < cacheVal q a then n else cacheVal q a)
      else cacheVal q b) ∧
    cacheVal (markNonceFailed q a n) b ≤ cacheVal q b ∧
    (nextNonce q b byRpc).2 = q ∧
    cacheVal q b ≤ cacheVal (submitAlloc q a byRpc).2 b := by
  refine ⟨cacheVal_markNonceFailed q a b n, ?_, rfl, ?_⟩
  · rw [cacheVal_markNonceFailed]
    by_cases hb : b = a
    · rw [if_pos hb, hb]
      by_cases hn : n < cacheVal q a
      · rw [if_pos hn]; exact le_of_lt hn
      · rw [if_neg hn]
    · rw [if_neg hb]
  · rw [submitAlloc_snd, cacheVal_setNonce]
    by_cases hb : b = a
    · subst hb
      simp only [if_pos rfl]
      exact Nat.le_succ_of_le (Nat.le_max_left _ _)
    · simp [hb]

/-! ## Claim C6 -/

/-- Counterexample to C6 as stated: address `"A"` has cached next-nonce
`5`; a submission allocates nonce `5` (remote responds `0`), advancing
the cache to `6`; the submission is rejected as invalid and
`markNonceFailed` rolls the cache back to `5`.  A subsequent `nextNonce`
call that observes remote next-index `10` returns `10 > 5`, exceeding the
cached value in effect before the failed attempt — the remote floor in
`Math.max` is not bounded by the old cache. -/
theorem nextNonce_after_invalid_cex :
    (submitAlloc qFive "A" 0).1 = 5 ∧
    cacheVal (markNonceFailed (submitAlloc qFive "A" 0).2 "A"
        (submitAlloc qFive "A" 0).1) "A" = 5 ∧
    (nextNonce (markNonceFailed (submitAlloc qFive "A" 0).2 "A"
        (submitAlloc qFive "A" 0).1) "A" 10).1 = 10 ∧
    ¬ ((10 : Nat) ≤ 5) := by decide

/-- Claim C6 (amended): after an `InvalidOperation` failure for the nonce
allocated by a submission on address `A`, a subsequent `nextNonce(A)`
returns a value ≤ the cached next-nonce in effect before the failed
attempt, provided the remote node's reported next-account-index (both the
one observed by the failed attempt and the one observed by the subsequent
call) does not exceed that cached value. -/
theorem nextNonce_after_invalid_amended (q : TxQueue) (a : String) (rpc1 rpc2 : Nat)
    (h1 : rpc1 ≤ cacheVal q a) (h2 : rpc2 ≤ cacheVal q a) :
    (nextNonce (markNonceFailed (submitAlloc q a rpc1).2 a
        (submitAlloc q a rpc1).1) a rpc2).1 ≤ cacheVal q a := by
  rw [nextNonce_fst, submitAlloc_fst, submitAlloc_snd, cacheVal_markNonceFailed,
    cacheVal_setNonce]
  simp only [if_pos rfl, Nat.lt_succ_self, if_true]
  rw [max_eq_left h1]
  exact max_le (le_refl _) h2

/-- Witness for the amended C6: cache `5` for `"A"`, remote responses `3`
then `4`; the post-rollback `nextNonce` returns at most `5`. -/
theorem nextNonce_after_invalid_amended_witness :
    (nextNonce (markNonceFailed (submitAlloc qFive "A" 3).2 "A"
        (submitAlloc qFive "A" 3).1) "A" 4).1 ≤ cacheVal qFive "A" :=
  nextNonce_after_invalid_amended qFive "A" 3 4 (by decide) (by decide)

/-! ## Claim C7 -/

/-- Counterexample to C7 as stated: two successive `nextNonce` calls for
`"A"` on a fresh queue, with no submissions and no rollback in between,
observe remote next-index `10` and then `3`; the returned values are `10`
then `3`, which is decreasing — the claim's universal quantification over
remote responses fails, since `nextNonce` caches nothing and the remote
value can go backwards. -/
theorem nextNonce_monotone_cex :
    (nextNonce TxQueue.empty "A" 10).1 = 10 ∧
    (nextNonce (nextNonce TxQueue.empty "A" 10).2 "A" 3).1 = 3 ∧
    ¬ ((10 : Nat) ≤ 3) := by decide

/-- Claim C7 (amended): for a fixed address, the values returned by
successive `nextNonce` calls — whether issued bare or as the allocation
step of interleaved `submit` calls — are monotonically non-decreasing, as
long as no rollback occurs between them and the remote next-account-index
responses observed by those calls are themselves non-decreasing. -/
theorem nextNonce_monotone_amended (ops : List QueueOp) (q : TxQueue) (a : String)
    (hr : List.Chain' (· ≤ ·) (ops.map opRpc)) :
    List.Chain' (· ≤ ·) (runOps q a ops).1 := by
  induction ops generalizing q with
  | nil => simp
  | cons op tail ih =>
    cases tail with
    | nil => simp [runOps]
    | cons op' rest =>
      simp only [List.map_cons, List.chain'_cons] at hr
      obtain ⟨h01, htail⟩ := hr
      simp only [runOps_cons, List.chain'_cons]
      refine ⟨?_, ?_⟩
      · rw [runOp_fst, runOp_fst]
        exact max_le_max (cacheVal_runOp_le q a op) h01
      · have := ih (runOp q a op).2 (by simpa [List.chain'_cons] using htail)
        simpa [runOps_cons] using this

/-- Witness for the amended C7: a bare call, an allocation, and another
bare call for `"A"` with non-decreasing remote responses `1, 2, 2`. -/
theorem nextNonce_monotone_amended_witness :
    List.Chain' (· ≤ ·)
      (runOps TxQueue.empty "A" [.query 1, .alloc 2, .query 2]).1 :=
  nextNonce_monotone_amended [.query 1, .alloc 2, .query 2] TxQueue.empty "A"
    (by norm_num [opRpc, List.chain'_cons])

/-! ## Claim C1 -/

/-- The racy interleaving: both submissions read the cached nonce before
either RPC response arrives, then both write back. -/
def raceSched : List (Bool × AllocStep) :=
  [(false, .readCache), (true, .readCache), (false, .finishRpc 0), (true, .finishRpc 0)]

/-- The serialized interleaving: the first submission's write-back happens
before the second submission reads the cache. -/
def serialSched : List (Bool × AllocStep) :=
  [(false, .readCache), (false, .finishRpc 0), (true, .readCache), (true, .finishRpc 0)]

/-- Claim C1 (code bug): two `submit` calls for the same address issued
without awaiting both read the cached next-nonce before either has
written it back — the write happens only after the awaited
`accountNextIndex` RPC resolves — so under the racy interleaving both
allocate nonce `0` (a duplicate, violating the claimed strict increase),
while the serialized interleaving allocates `0` then `1` as the claim
describes for all interleavings. -/
theorem concurrent_submit_duplicate_nonce :
    ((runSched "A" ⟨TxQueue.empty, .fresh, .fresh⟩ raceSched).t1.allocated = some 0 ∧
     (runSched "A" ⟨TxQueue.empty, .fresh, .fresh⟩ raceSched).t2.allocated = some 0 ∧
     cacheVal (runSched "A" ⟨TxQueue.empty, .fresh, .fresh⟩ raceSched).q "A" = 1) ∧
    ((runSched "A" ⟨TxQueue.empty, .fresh, .fresh⟩ serialSched).t1.allocated = some 0 ∧
     (runSched "A" ⟨TxQueue.empty, .fresh, .fresh⟩ serialSched).t2.allocated = some 1) := by
  decide

/-! ## Claims C3, C4: helper lemmas about the failure-event loop -/

theorem failStep_q (s : SubmitState) (e : ChainEvent) : (failStep s e).q = s.q := by
  unfold failStep settle doUnsub
  split
  · split <;> rfl
  · rfl

theorem foldl_failStep_q (E : List ChainEvent) (s : SubmitState) :
    (E.foldl failStep s).q = s.q := by
  induction E generalizing s with
  | nil => rfl
  | cons e es ih => rw [List.foldl_cons, ih, failStep_q]

theorem foldl_failStep_of_no_failure (E : List ChainEvent) (s : SubmitState)
    (hE : ∀ e ∈ E, isFailureEvent e = false) : E.foldl failStep s = s := by
  induction E generalizing s with
  | nil => rfl
  | cons e es ih =>
    rw [List.foldl_cons]
    have he : failStep s e = s := by
      unfold failStep
      rw [hE e (List.mem_cons_self e es)]
      rfl
    rw [he]
    exact ih s (fun e' he' => hE e' (List.mem_cons_of_mem _ he'))

theorem failStep_settled_stays (s : SubmitState) (e : ChainEvent) (o : Outcome)
    (h : s.settled = some o) : (failStep s e).settled = some o := by
  unfold failStep settle doUnsub
  split
  · simp [h]
  · exact h

theorem foldl_failStep_settled_stays (E : List ChainEvent) (s : SubmitState) (o : Outcome)
    (h : s.settled = some o) : (E.foldl failStep s).settled = some o := by
  induction E generalizing s with
  | nil => exact h
  | cons e es ih =>
    rw [List.foldl_cons]
    exact ih _ (failStep_settled_stays s e o h)

/-- The first event with `section === 'system' && method === 'ExtrinsicFailed'`
in an inclusion's event list, if any, with its decoded payload. -/
def firstFailurePayload : List ChainEvent → Option String
  | [] => none
  | e :: es => if isFailureEvent e then some e.payload else firstFailurePayload es

theorem foldl_failStep_settled_first (E : List ChainEvent) (s : SubmitState) (p : String)
    (hs : s.settled = none) (hp : firstFailurePayload E = some p) :
    (E.foldl failStep s).settled = some (.rejected p) := by
  induction E generalizing s with
  | nil => cases hp
  | cons e es ih =>
    rw [List.foldl_cons]
    by_cases hf : isFailureEvent e
    · rw [firstFailurePayload, if_pos hf, Option.some_inj] at hp
      have hset : (failStep s e).settled = some (.rejected p) := by
        unfold failStep settle doUnsub
        rw [if_pos hf]
        simp [hs, hp]
      exact foldl_failStep_settled_stays es _ _ hset
    · have he : failStep s e = s := by
        unfold failStep
        rw [Bool.of_not_eq_true hf]
        rfl
      rw [he]
      rw [firstFailurePayload, if_neg hf] at hp
      exact ih s hs hp

/-! ## Claim C3 -/

/-- Claim C3: a successful `submit` resolves with the reference of the
block in which the operation was included and the events delivered with
the inclusion; with `waitForFinalization` the promise resolves only at
the `Finalized` update, whose reported block (equal to the recorded
inclusion block for a well-formed stream, as encoded by using the same
`bh` in both updates) is carried as the resolved reference.  `E` is the
event list the node attaches to the inclusion (and re-delivers at
finalization), assumed to contain no failure event. -/
theorem submit_success_outcome (q : TxQueue) (address : String) (nonce bh : Nat)
    (E : List ChainEvent) (hE : ∀ e ∈ E, isFailureEvent e = false) :
    (runResults false address nonce (initSubmit q) [⟨.inBlock bh, E⟩]).settled
        = some (.resolved (some bh) E) ∧
    (runResults true address nonce (initSubmit q) [⟨.inBlock bh, E⟩, ⟨.finalized bh, E⟩]).settled
        = some (.resolved (some bh) E) := by
  constructor
  · show (processResult false address nonce (initSubmit q) ⟨.inBlock bh, E⟩).settled = _
    unfold processResult
    rw [if_neg (by simp [initSubmit])]
    simp only
    rw [foldl_failStep_of_no_failure E _ hE]
    rfl
  · show (processResult true address nonce
      (processResult true address nonce (initSubmit q) ⟨.inBlock bh, E⟩)
      ⟨.finalized bh, E⟩).settled = _
    have h1 : processResult true address nonce (initSubmit q) ⟨.inBlock bh, E⟩
        = { initSubmit q with storedHash := some bh } := by
      unfold processResult
      rw [if_neg (by simp [initSubmit])]
      simp only
      rw [foldl_failStep_of_no_failure E _ hE]
      rfl
    rw [h1]
    unfold processResult
    rw [if_neg (by simp [initSubmit])]
    rfl

/-- Witness for C3: inclusion in block `5` with a single non-failure
event, with and without `waitForFinalization`. -/
theorem submit_success_outcome_witness :
    (runResults false "A" 0 (initSubmit TxQueue.empty)
        [⟨.inBlock 5, [⟨"balances", "Transfer", "ok"⟩]⟩]).settled
      = some (.resolved (some 5) [⟨"balances", "Transfer", "ok"⟩]) ∧
    (runResults true "A" 0 (initSubmit TxQueue.empty)
        [⟨.inBlock 5, [⟨"balances", "Transfer", "ok"⟩]⟩,
         ⟨.finalized 5, [⟨"balances", "Transfer", "ok"⟩]⟩]).settled
      = some (.resolved (some 5) [⟨"balances", "Transfer", "ok"⟩]) :=
  submit_success_outcome TxQueue.empty "A" 0 5 [⟨"balances", "Transfer", "ok"⟩]
    (by decide)

/-! ## Claim C4 -/

/-- Claim C4: when an operation is included in a block together with an
`ExtrinsicFailed` event, the `submit` promise is rejected with the decoded
payload of the first such event, and the shared nonce tracker is left
exactly as it was after allocation — the inclusion branch never touches
it, so no rollback happens for semantic failures. -/
theorem submit_failure_event_spec (q : TxQueue) (address : String) (nonce : Nat)
    (wf : Bool) (bh : Nat) (E : List ChainEvent) (p : String)
    (hp : firstFailurePayload E = some p) :
    (processResult wf address nonce (initSubmit q) ⟨.inBlock bh, E⟩).settled
        = some (.rejected p) ∧
    (processResult wf address nonce (initSubmit q) ⟨.inBlock bh, E⟩).q = q := by
  unfold processResult
  rw [if_neg (by simp [initSubmit])]
  simp only
  have hfold : (E.foldl failStep (initSubmit q)).settled = some (.rejected p) :=
    foldl_failStep_settled_first E _ p rfl hp
  have hq : (E.foldl failStep (initSubmit q)).q = q :=
    foldl_failStep_q E _
  cases wf with
  | false =>
    simp only [Bool.not_false, if_pos]
    constructor
    · unfold settle doUnsub
      rw [if_pos (by simp [hfold])]
      exact hfold
    · unfold settle doUnsub
      rw [if_pos (by simp [hfold])]
      exact hq
  | true =>
    simp only [Bool.not_true, Bool.false_eq_true, if_false]
    exact ⟨hfold, hq⟩

/-- Witness for C4: inclusion with a failure event of payload
`"BadOrigin"` rejects with that payload and leaves the tracker of `qNine`
(entry `9` for `"A"`) untouched. -/
theorem submit_failure_event_spec_witness :
    (processResult false "A" 3 (initSubmit qNine)
        ⟨.inBlock 7, [⟨"system", "ExtrinsicFailed", "BadOrigin"⟩]⟩).settled
      = some (.rejected "BadOrigin") ∧
    (processResult false "A" 3 (initSubmit qNine)
        ⟨.inBlock 7, [⟨"system", "ExtrinsicFailed", "BadOrigin"⟩]⟩).q = qNine :=
  submit_failure_event_spec qNine "A" 3 false 7
    [⟨"system", "ExtrinsicFailed", "BadOrigin"⟩] "BadOrigin" (by decide)

/-! ## Claim C9 -/

/-- Claim C9 (code bug): with `waitForFinalization = true` the promise
settles at the `Finalized` update, but the `isFinalized` branch never
calls `unsub()`: after settling, the subscription is still live
(`unsubbed = false`), and a status update delivered after the promise
settled is still processed — here a later `Invalid` update rolls the
shared nonce cache of `qNine` back from `9` to `3`.  The other terminal
branches do tear the subscription down. -/
theorem finalized_leaks_subscription :
    (runResults true "A" 3 (initSubmit qNine)
        [⟨.inBlock 7, []⟩, ⟨.finalized 7, []⟩]).settled
      = some (.resolved (some 7) []) ∧
    (runResults true "A" 3 (initSubmit qNine)
        [⟨.inBlock 7, []⟩, ⟨.finalized 7, []⟩]).unsubbed = false ∧
    cacheVal (runResults true "A" 3 (initSubmit qNine)
        [⟨.inBlock 7, []⟩, ⟨.finalized 7, []⟩, ⟨.invalid, []⟩]).q "A" = 3 ∧
    (runResults false "A" 3 (initSubmit qNine) [⟨.inBlock 7, []⟩]).unsubbed = true := by
  decide

/-! ## Claim C8 -/

/-- Skipping the indecisive iterations: while every sampled predicate is
false and every elapsed-time check is below the timeout, the loop keeps
going. -/
theorem checkUntilFrom_skip (env : PollEnv) (t0 T : Int) :
    ∀ (i k fuel : Nat), i ≤ fuel →
      (∀ j, j < i → env.sample (k + j) = false ∧ env.clock (k + j) - t0 < T) →
      checkUntilFrom env t0 T fuel k = checkUntilFrom env t0 T (fuel - i) (k + i) := by
  intro i
  induction i with
  | zero => intro k fuel _ _; rfl
  | succ i ih =>
    intro k fuel hle hpre
    cases fuel with
    | zero => omega
    | succ f =>
      have h0 := hpre 0 (Nat.succ_pos i)
      rw [Nat.add_zero] at h0
      rw [checkUntilFrom, h0.1, if_neg (not_le.mpr h0.2)]
      simp only [Bool.false_eq_true, if_false]
      have hrec := ih (k + 1) f (Nat.succ_le_succ_iff.mp hle)
        (fun j hj => by
          have := hpre (j + 1) (Nat.succ_lt_succ hj)
          rwa [show k + (j + 1) = k + 1 + j by omega] at this)
      rw [hrec]
      congr 1 <;> omega

/-- Counterexample to C8 as stated: polls occur at clock values
`0, 100, 200, 300, …` with `t0 = 0` and timeout `250`; the predicate is
false at every instant up to and including `250` (it first becomes true
at clock `300`).  The claim requires a `Timeout` failure, but the source
evaluates the predicate before comparing elapsed time, so the poll at
clock `300` — the first one past the deadline — sees the predicate true
and returns success. -/
def lateEnv : PollEnv :=
  ⟨fun i => decide ((300 : Int) ≤ 100 * (i : Int)), fun i => 100 * (i : Int)⟩

theorem checkUntil_timeout_cex :
    checkUntil lateEnv 0 250 10 = some (.ok 3) ∧
    lateEnv.sample 0 = false ∧ lateEnv.sample 1 = false ∧ lateEnv.sample 2 = false ∧
    lateEnv.clock 2 = 200 ∧ lateEnv.clock 3 = 300 ∧ ¬ ((300 : Int) ≤ 250) := by
  decide

/-- Claim C8 (amended): `checkUntil` evaluates the predicate before each
elapsed-time comparison.  Let `i` be the first decisive iteration: every
earlier iteration sampled the predicate false with elapsed time
(measured from the call-start clock `t0`) strictly below the timeout.
Then the call returns successfully at iteration `i` when the predicate
samples true there — in particular whenever the predicate became true
strictly before the timeout elapsed — and fails with the `Timeout` error
(no partial result exists) when the predicate samples false there with
elapsed time at or past the timeout.  This corrects the original timeout
half: a predicate false throughout the timeout window but true at the
first poll past it yields success, not `Timeout`. -/
theorem checkUntil_first_decisive (env : PollEnv) (t0 T : Int) (fuel i : Nat)
    (hfuel : i < fuel)
    (hpre : ∀ j, j < i → env.sample j = false ∧ env.clock j - t0 < T) :
    (env.sample i = true → checkUntil env t0 T fuel = some (.ok i)) ∧
    (env.sample i = false → T ≤ env.clock i - t0 →
      checkUntil env t0 T fuel = some (.timedOut i)) := by
  have hshift := checkUntilFrom_skip env t0 T i 0 fuel (le_of_lt hfuel)
    (fun j hj => by simpa using hpre j hj)
  rw [Nat.zero_add] at hshift
  obtain ⟨m, hm⟩ : ∃ m, fuel - i = m + 1 := ⟨fuel - i - 1, by omega⟩
  constructor
  · intro hs
    rw [checkUntil, hshift, hm, checkUntilFrom, hs, if_pos rfl]
  · intro hs ht
    rw [checkUntil, hshift, hm, checkUntilFrom, hs]
    simp only [Bool.false_eq_true, if_false]
    rw [if_pos ht]

/-- Witness for the amended C8: a predicate that first samples true at
iteration 2 (clock `200`, within the `250` timeout) makes the call
succeed there. -/
def flipEnv : PollEnv :=
  ⟨fun i => decide (2 ≤ i), fun i => 100 * (i : Int)⟩

theorem checkUntil_first_decisive_witness :
    checkUntil flipEnv 0 250 10 = some (.ok 2) :=
  (checkUntil_first_decisive flipEnv 0 250 10 2 (by decide)
    (by decide)).1 (by decide)

/-! ## Claim C10 -/

/-- Claim C10: both `checkUntil` and `checkUntilEq` run their loop body —
which evaluates the caller-supplied asynchronous function — before any
elapsed-time comparison, so a call whose condition holds at the first
evaluation returns successfully for every timeout value, including zero
and negative timeouts. -/
theorem poller_first_sample {α : Type} [BEq α] (env : PollEnv) (envE : PollEnvEq α)
    (expected : α) (t0 T : Int) (verbose : Bool) (fuel : Nat)
    (h1 : env.sample 0 = true) (h2 : (envE.sample 0 == expected) = true) :
    checkUntil env t0 T (fuel + 1) = some (.ok 0) ∧
    checkUntilEq envE expected t0 T verbose (fuel + 1) = some (.ok 0) := by
  constructor
  · rw [checkUntil, checkUntilFrom, h1, if_pos rfl]
  · rw [checkUntilEq, checkUntilEqFrom]
    simp only [h2, if_pos]

/-- Witness for C10: a predicate true at the first evaluation and a value
function matching `7` at the first evaluation both succeed with the
negative timeout `-5`. -/
def constEnv : PollEnv := ⟨fun _ => true, fun i => 100 * (i : Int)⟩

def constEnvEq : PollEnvEq Int := ⟨fun _ => 7, fun i => 100 * (i : Int)⟩

theorem poller_first_sample_witness :
    checkUntil constEnv 0 (-5) 1 = some (.ok 0) ∧
    checkUntilEq constEnvEq 7 0 (-5) true 1 = some (.ok 0) :=
  poller_first_sample constEnv constEnvEq 7 0 (-5) true 0 rfl rfl

end SetupDrivers
